import Mathlib

/-!
# Event-Planner: verification of the event / invitation service layer

A shallow embedding of the Go sources of the Event-Planner repository
(`internal/event/service.go`, `internal/event/model.go`,
`internal/invitation/*.go`, `internal/auth/service.go`, `schema.sql`).

The relational store is modelled as an explicit `DB` value threaded through
the repository functions.  Go errors are strings; every fallible operation
returns `Except String`.  Go `time.Time` values obtained from
`time.Parse("2006-01-02", _)` and `time.Parse("15:04:05", _)` are modelled
as `Date` and `TimeOfDay` records; the current instant `time.Now()` is an
explicit `Nat` parameter counted in nanoseconds on the same absolute scale
as `toNanos` (Go compares absolute instants, and a parsed date-time is a
whole second in UTC).
-/

namespace EventPlanner

/-- A calendar date as produced by Go `time.Parse("2006-01-02", s)`. -/
structure Date where
  year : Nat
  month : Nat
  day : Nat
deriving DecidableEq, Repr

/-- A time of day as produced by Go `time.Parse("15:04:05", s)`. -/
structure TimeOfDay where
  hour : Nat
  minute : Nat
  second : Nat
deriving DecidableEq, Repr

/-- Numeric value of a decimal digit character, or `none`. -/
def digit? (c : Char) : Option Nat :=
  if c.isDigit then some (c.toNat - 48) else none

/-- Two-digit zero-padded field, as Go reads fixed-width layout fields. -/
def parse2 (a b : Char) : Option Nat := do
  let x ← digit? a
  let y ← digit? b
  pure (10 * x + y)

/-- Four-digit year field of the layout "2006". -/
def parse4 (a b c d : Char) : Option Nat := do
  let x ← digit? a
  let y ← digit? b
  let z ← digit? c
  let w ← digit? d
  pure (1000 * x + 100 * y + 10 * z + w)

/-- Proleptic-Gregorian leap-year rule, as used by Go `time`. -/
def isLeapYear (y : Nat) : Bool :=
  (y % 4 == 0 && y % 100 != 0) || y % 400 == 0

/-- Number of days in a month, the range Go `time.Parse` checks days against. -/
def daysInMonth (y m : Nat) : Nat :=
  if m == 2 then (if isLeapYear y then 29 else 28)
  else if m == 4 || m == 6 || m == 9 || m == 11 then 30
  else 31

/-- Go `time.Parse("2006-01-02", s)`: exactly ten characters, zero-padded
fields, month in 1..12 and day in range for the month (Go rejects
out-of-range components). Returns `none` where Go returns an error. -/
def parseDate (s : String) : Option Date :=
  match s.data with
  | [y1, y2, y3, y4, '-', m1, m2, '-', d1, d2] => do
    let y ← parse4 y1 y2 y3 y4
    let m ← parse2 m1 m2
    let d ← parse2 d1 d2
    if 1 ≤ m ∧ m ≤ 12 ∧ 1 ≤ d ∧ d ≤ daysInMonth y m then
      pure ⟨y, m, d⟩
    else
      none
  | _ => none

/-- Go `time.Parse("15:04:05", s)`: exactly eight characters, hour 0..23,
minute and second 0..59. -/
def parseTimeOfDay (s : String) : Option TimeOfDay :=
  match s.data with
  | [h1, h2, ':', m1, m2, ':', s1, s2] => do
    let h ← parse2 h1 h2
    let mi ← parse2 m1 m2
    let se ← parse2 s1 s2
    if h ≤ 23 ∧ mi ≤ 59 ∧ se ≤ 59 then
      pure ⟨h, mi, se⟩
    else
      none
  | _ => none

/-- Days from the start of year 0 to the start of year `y`
(proleptic Gregorian). -/
def daysBeforeYear (y : Nat) : Nat :=
  365 * y + (y + 3) / 4 - (y + 99) / 100 + (y + 399) / 400

/-- Days from the start of the year to the start of month `m`. -/
def daysBeforeMonth (y m : Nat) : Nat :=
  let base :=
    if m ≤ 1 then 0
    else if m = 2 then 31
    else if m = 3 then 59
    else if m = 4 then 90
    else if m = 5 then 120
    else if m = 6 then 151
    else if m = 7 then 181
    else if m = 8 then 212
    else if m = 9 then 243
    else if m = 10 then 273
    else if m = 11 then 304
    else 334
  if 3 ≤ m ∧ isLeapYear y then base + 1 else base

/-- Absolute instant (nanoseconds from 0000-01-01 00:00:00 UTC) of a parsed
date-time, the scale on which Go `Time.Before` compares instants. -/
def toNanos (d : Date) (t : TimeOfDay) : Nat :=
  ((daysBeforeYear d.year + daysBeforeMonth d.year d.month + (d.day - 1)) * 86400
    + t.hour * 3600 + t.minute * 60 + t.second) * 1000000000

/-- Parse a date string and a time string as the pair Go obtains from
`time.Parse("2006-01-02 15:04:05", date ++ " " ++ timeStr)`; with the fixed
nineteen-character layout this combined parse succeeds exactly when the two
component parses succeed, so it is modelled componentwise. -/
def dateTimeNanos (date timeStr : String) : Option Nat :=
  match parseDate date, parseTimeOfDay timeStr with
  | some d, some t => some (toNanos d t)
  | _, _ => none

/-! ## Rows and database state (schema.sql) -/

/-- A row of the `events` table (`internal/event/model.go`, `Event`). -/
structure EventRow where
  id : Int
  title : String
  description : String
  date : Date
  time : TimeOfDay
  location : String
  organizerID : Int
  createdAt : Nat
deriving DecidableEq, Repr

/-- A row of the `event_attendees` table (`EventAttendee`). -/
structure AttendeeRow where
  id : Int
  userID : Int
  eventID : Int
  role : String
  status : String
  createdAt : Nat
deriving DecidableEq, Repr

/-- A row of the `invitations` table (`internal/invitation/model.go`). -/
structure InvitationRow where
  id : Int
  eventID : Int
  inviterID : Int
  inviteeEmail : String
  inviteeID : Option Int
  role : String
  status : String
  message : String
  createdAt : Nat
  respondedAt : Option Nat
deriving DecidableEq, Repr

/-- A row of the `users` table. -/
structure UserRow where
  id : Int
  email : String
  passwordHash : String
  createdAt : Nat
deriving DecidableEq, Repr

/-- The relational store.  The `next*Id` counters model the SERIAL id
sequences of `schema.sql`. -/
structure DB where
  users : List UserRow
  events : List EventRow
  attendees : List AttendeeRow
  invitations : List InvitationRow
  nextEventId : Int
  nextAttendeeId : Int
  nextInvitationId : Int
deriving DecidableEq, Repr

/-- Well-formedness that the live database guarantees: every attendee row
references an event id already handed out by the `events` id sequence. -/
def DB.WF (db : DB) : Prop :=
  ∀ a ∈ db.attendees, a.eventID < db.nextEventId

/-- Message text of a PostgreSQL unique-constraint violation, surfaced by
the pgx driver when an INSERT hits `UNIQUE(user_id, event_id)`. -/
def uniqueViolation : String :=
  "duplicate key value violates unique constraint"

/-- Does `event_attendees` already hold a row for this (user, event) pair
(the `UNIQUE(user_id, event_id)` constraint of `schema.sql`)? -/
def attendeePairExists (db : DB) (userID eventID : Int) : Bool :=
  db.attendees.any (fun a => a.userID == userID && a.eventID == eventID)

/-- Request payload of `CreateEvent` (`internal/event/model.go`). -/
structure CreateEventRequest where
  title : String
  description : String
  date : String
  time : String
  location : String
deriving DecidableEq, Repr

/-- Request payload of `UpdateEvent`; empty strings mean "not supplied". -/
structure UpdateEventRequest where
  title : String
  description : String
  date : String
  time : String
  location : String
deriving DecidableEq, Repr

/-- Request payload of `InviteUserToEvent`. -/
structure AddAttendeeRequest where
  userID : Int
  role : String
deriving DecidableEq, Repr

/-! ## Repository layer (`internal/event/model.go`,
`internal/invitation/repository.go`) -/

namespace Repo

/-- `Repository.GetEventByID`: SELECT by id; the pgx no-row error is wrapped
as "failed to get event: ...". -/
def GetEventByID (db : DB) (eventID : Int) : Except String EventRow :=
  match db.events.find? (fun e => e.id == eventID) with
  | some e => .ok e
  | none => .error "failed to get event: no rows in result set"

/-- `Repository.CreateEvent`: INSERT INTO events RETURNING id, created_at.
The id comes from the SERIAL sequence and created_at from NOW(). -/
def CreateEvent (db : DB) (title description : String) (d : Date)
    (t : TimeOfDay) (location : String) (organizerID : Int) (now : Nat) :
    EventRow × DB :=
  let ev : EventRow :=
    { id := db.nextEventId, title := title, description := description,
      date := d, time := t, location := location,
      organizerID := organizerID, createdAt := now }
  (ev, { db with events := db.events ++ [ev],
                 nextEventId := db.nextEventId + 1 })

/-- Shared INSERT INTO event_attendees: enforces the
`UNIQUE(user_id, event_id)` constraint of `schema.sql` (the CHECK
constraints on role and status hold at every call site because the service
validates first). -/
def insertAttendee (db : DB) (userID eventID : Int) (role status : String)
    (now : Nat) : Except String DB :=
  if attendeePairExists db userID eventID then
    .error uniqueViolation
  else
    .ok { db with
          attendees := db.attendees ++
            [{ id := db.nextAttendeeId, userID := userID, eventID := eventID,
               role := role, status := status, createdAt := now }],
          nextAttendeeId := db.nextAttendeeId + 1 }


/-- `Repository.JoinEvent`: INSERT with role 'attendee', status 'going';
driver errors are wrapped as "failed to join event: ...". -/
def JoinEvent (db : DB) (userID eventID : Int) (now : Nat) :
    Except String DB :=
  match insertAttendee db userID eventID "attendee" "going" now with
  | .ok db1 => .ok db1
  | .error e => .error ("failed to join event: " ++ e)

/-- `Repository.AddOrganizerAsAttendee`: INSERT with role 'organizer',
status 'going'. -/
def AddOrganizerAsAttendee (db : DB) (userID eventID : Int) (now : Nat) :
    Except String DB :=
  match insertAttendee db userID eventID "organizer" "going" now with
  | .ok db1 => .ok db1
  | .error e => .error ("failed to add organizer as attendee: " ++ e)

/-- `Repository.AddAttendee`: INSERT with the given role, status 'going'. -/
def AddAttendee (db : DB) (eventID userID : Int) (role : String)
    (now : Nat) : Except String DB :=
  match insertAttendee db userID eventID role "going" now with
  | .ok db1 => .ok db1
  | .error e => .error ("failed to add user to event: " ++ e)

/-- Go `if updates.Title != "" { currentEvent.Title = updates.Title }`. -/
def applyTitle (updates : UpdateEventRequest) (e : EventRow) : EventRow :=
  if updates.title ≠ "" then { e with title := updates.title } else e

/-- Go `if updates.Description != "" { ... }`. -/
def applyDescription (updates : UpdateEventRequest) (e : EventRow) : EventRow :=
  if updates.description ≠ "" then { e with description := updates.description }
  else e

/-- Go `if updates.Date != "" { parse and assign, or fail }`. -/
def applyDateField (updates : UpdateEventRequest) (e : EventRow) :
    Except String EventRow :=
  if updates.date ≠ "" then
    match parseDate updates.date with
    | some d => .ok { e with date := d }
    | none => .error "invalid date format: parsing error"
  else .ok e

/-- Go `if updates.Time != "" { parse and assign, or fail }`. -/
def applyTimeField (updates : UpdateEventRequest) (e : EventRow) :
    Except String EventRow :=
  if updates.time ≠ "" then
    match parseTimeOfDay updates.time with
    | some t => .ok { e with time := t }
    | none => .error "invalid time format: parsing error"
  else .ok e

/-- Go `if updates.Location != "" { ... }`. -/
def applyLocation (updates : UpdateEventRequest) (e : EventRow) : EventRow :=
  if updates.location ≠ "" then { e with location := updates.location } else e

/-- The UPDATE ... WHERE id = eventID write-back of the assembled row. -/
def updateResult (db : DB) (eventID : Int) (ev : EventRow) : DB :=
  { db with events := db.events.map (fun e => if e.id == eventID then ev else e) }

/-- `Repository.UpdateEvent`: read the current row, overwrite each field
whose patch value is non-empty (parsing date and time), then UPDATE the row.
The time.Parse failure messages are wrapped as "invalid date format: ..." /
"invalid time format: ..." in the Go source. -/
def UpdateEvent (db : DB) (eventID : Int) (updates : UpdateEventRequest) :
    Except String (EventRow × DB) := do
  let current ← GetEventByID db eventID
  let current := applyTitle updates current
  let current := applyDescription updates current
  let current ← applyDateField updates current
  let current ← applyTimeField updates current
  let current := applyLocation updates current
  pure (current, updateResult db eventID current)

/-- `Repository.DeleteEvent`: DELETE WHERE id; "event not found" when no row
is affected.  `ON DELETE CASCADE` in `schema.sql` removes the attendee rows
of the event. -/
def DeleteEvent (db : DB) (eventID : Int) : Except String DB :=
  if db.events.any (fun e => e.id == eventID) then
    .ok { db with
          events := db.events.filter (fun e => !(e.id == eventID)),
          attendees := db.attendees.filter (fun a => !(a.eventID == eventID)) }
  else
    .error "event not found"

/-- `Repository.GetInvitationByID`. -/
def GetInvitationByID (db : DB) (invitationID : Int) :
    Except String InvitationRow :=
  match db.invitations.find? (fun i => i.id == invitationID) with
  | some i => .ok i
  | none => .error "failed to get invitation: no rows in result set"

/-- The row change performed by `Repository.UpdateInvitationStatus` on the
matching row: SET status = $1, responded_at = now. -/
def setInvitationStatus (invitationID : Int) (status : String) (now : Nat)
    (i : InvitationRow) : InvitationRow :=
  if i.id == invitationID then
    { i with status := status, respondedAt := some now }
  else i

/-- `Repository.UpdateInvitationStatus`: UPDATE invitations SET status,
responded_at WHERE id; the Go code does not check the affected row count,
so the operation succeeds even when no row matches. -/
def UpdateInvitationStatus (db : DB) (invitationID : Int) (status : String)
    (now : Nat) : Except String DB :=
  .ok { db with
        invitations :=
          db.invitations.map (setInvitationStatus invitationID status now) }

end Repo

/-! ## Service layer (`internal/event/service.go`) -/

namespace Service

/-- `Service.validateCreateRequest`: required fields and length caps (Go
`len` counts bytes, hence `utf8ByteSize`). -/
def validateCreateRequest (req : CreateEventRequest) : Except String Unit :=
  if req.title = "" then .error "event title is required"
  else if req.date = "" then .error "event date is required"
  else if req.time = "" then .error "event time is required"
  else if req.location = "" then .error "event location is required"
  else if req.title.utf8ByteSize > 255 then
    .error "event title must not exceed 255 characters"
  else if req.description.utf8ByteSize > 1000 then
    .error "event description must not exceed 1000 characters"
  else .ok ()

/-- `Service.validateDateFormat`. -/
def validateDateFormat (date : String) : Except String Unit :=
  match parseDate date with
  | some _ => .ok ()
  | none => .error "invalid date format, use YYYY-MM-DD"

/-- `Service.validateTimeFormat`. -/
def validateTimeFormat (timeStr : String) : Except String Unit :=
  match parseTimeOfDay timeStr with
  | some _ => .ok ()
  | none => .error "invalid time format, use HH:MM:SS"

/-- `Service.validateDateTime`: date format first, then time format. -/
def validateDateTime (date timeStr : String) : Except String Unit := do
  validateDateFormat date
  validateTimeFormat timeStr

/-- `Service.validateFutureEvent`: parse the combined date-time and fail
when it is strictly before `now` (`eventDateTime.Before(time.Now())`). -/
def validateFutureEvent (date timeStr : String) (now : Nat) :
    Except String Unit :=
  match dateTimeNanos date timeStr with
  | none => .error "failed to parse event date and time"
  | some n =>
    if n < now then .error "event date and time must be in the future"
    else .ok ()

/-- `Service.CreateEvent`: validate, parse, INSERT the event, then add the
organizer as an attendee (the second repo error is wrapped once more by the
service). -/
def CreateEvent (db : DB) (req : CreateEventRequest) (organizerID : Int)
    (now : Nat) : Except String (EventRow × DB) := do
  validateCreateRequest req
  validateDateTime req.date req.time
  validateFutureEvent req.date req.time now
  match parseDate req.date, parseTimeOfDay req.time with
  | some d, some t =>
    let (ev, db1) := Repo.CreateEvent db req.title req.description d t
      req.location organizerID now
    match Repo.AddOrganizerAsAttendee db1 organizerID ev.id now with
    | .ok db2 => pure (ev, db2)
    | .error e => throw ("failed to add organizer as attendee: " ++ e)
  | none, _ => throw "invalid date format: parsing error"
  | some _, none => throw "invalid time format: parsing error"

/-- The inline date/time validation branch of `Service.UpdateEvent`
(service.go lines 134-149), factored as its own definition: both supplied
means pair format check plus future check; a single supplied field means
only that format check. -/
def validateUpdateDateTime (req : UpdateEventRequest) (now : Nat) :
    Except String Unit :=
  if req.date ≠ "" ∧ req.time ≠ "" then do
    validateDateTime req.date req.time
    validateFutureEvent req.date req.time now
  else if req.date ≠ "" then validateDateFormat req.date
  else if req.time ≠ "" then validateTimeFormat req.time
  else .ok ()

/-- `Service.UpdateEvent`: id guard, ownership check against the stored
organizer, date/time validation branch, then the repository update. -/
def UpdateEvent (db : DB) (eventID : Int) (req : UpdateEventRequest)
    (organizerID : Int) (now : Nat) : Except String (EventRow × DB) := do
  if eventID ≤ 0 then throw "invalid event ID"
  let event ← Repo.GetEventByID db eventID
  if event.organizerID ≠ organizerID then
    throw "you are not authorized to update this event"
  validateUpdateDateTime req now
  Repo.UpdateEvent db eventID req

/-- `Service.DeleteEvent`: id guard, ownership check, repository delete. -/
def DeleteEvent (db : DB) (eventID : Int) (organizerID : Int) :
    Except String DB := do
  if eventID ≤ 0 then throw "invalid event ID"
  let event ← Repo.GetEventByID db eventID
  if event.organizerID ≠ organizerID then
    throw "you are not authorized to delete this event"
  Repo.DeleteEvent db eventID

/-- `Service.JoinEvent`: id guards, existence check (any lookup failure is
reported as "event not found"), then the INSERT. -/
def JoinEvent (db : DB) (userID eventID : Int) (now : Nat) :
    Except String DB := do
  if userID ≤ 0 then throw "invalid user ID"
  if eventID ≤ 0 then throw "invalid event ID"
  match Repo.GetEventByID db eventID with
  | .error _ => throw "event not found"
  | .ok _ => Repo.JoinEvent db userID eventID now

/-- `Service.InviteUserToEvent`: id guards, role whitelist, event existence,
creator-only check, self-invite check, then the INSERT with status
'going'. -/
def InviteUserToEvent (db : DB) (eventID inviterID : Int)
    (req : AddAttendeeRequest) (now : Nat) : Except String DB := do
  if eventID ≤ 0 then throw "invalid event ID"
  if inviterID ≤ 0 then throw "invalid inviter ID"
  if req.userID ≤ 0 then throw "invalid user ID"
  if req.role ≠ "attendee" ∧ req.role ≠ "collaborator" ∧
      req.role ≠ "organizer" then
    throw "invalid role: must be \x27attendee\x27, \x27collaborator\x27, or \x27organizer\x27"
  match Repo.GetEventByID db eventID with
  | .error _ => throw "event not found"
  | .ok event => do
    if event.organizerID ≠ inviterID then
      throw "only the event creator can invite users to this event"
    if req.userID = inviterID then
      throw "you cannot invite yourself to the event"
    Repo.AddAttendee db eventID req.userID req.role now

end Service

/-! ## List-returning reads.  A Go slice is `Option (List _)`: `none` is the
nil slice that a query loop leaves behind when it scans zero rows, `some l`
a non-nil slice.  Row order (the SQL ORDER BY clauses) is not modelled; no
claim depends on it. -/

/-- The slice built by a Go row-scanning loop: nil when no rows. -/
def rowsToSlice {α : Type} (l : List α) : Option (List α) :=
  if l.isEmpty then none else some l

/-- `EventWithAttendeeInfo`: an event joined with the attendance row. -/
structure EventWithAttendeeInfo where
  event : EventRow
  role : String
  status : String
deriving DecidableEq, Repr

/-- `InvitationWithDetails`: an invitation joined with its event and the
inviter (the date and time are kept structured; the SQL text formatting is
not modelled). -/
structure InvitationWithDetails where
  invitation : InvitationRow
  eventTitle : String
  eventDate : Date
  eventTime : TimeOfDay
  eventLocation : String
  inviterEmail : String
deriving DecidableEq, Repr

namespace Repo

/-- `Repository.GetAllEvents`. -/
def GetAllEvents (db : DB) : Option (List EventRow) :=
  rowsToSlice db.events

/-- `Repository.GetEventsByOrganizerID`. -/
def GetEventsByOrganizerID (db : DB) (organizerID : Int) :
    Option (List EventRow) :=
  rowsToSlice (db.events.filter (fun e => e.organizerID == organizerID))

/-- `Repository.GetMyOrganizedEvents` (same query as by-organizer). -/
def GetMyOrganizedEvents (db : DB) (organizerID : Int) :
    Option (List EventRow) :=
  rowsToSlice (db.events.filter (fun e => e.organizerID == organizerID))

/-- `Repository.GetEventsByAttendeeID`: events JOIN event_attendees
WHERE user_id. -/
def GetEventsByAttendeeID (db : DB) (userID : Int) :
    Option (List EventWithAttendeeInfo) :=
  rowsToSlice (db.attendees.filterMap (fun a =>
    if a.userID == userID then
      (db.events.find? (fun e => e.id == a.eventID)).map
        (fun e => { event := e, role := a.role, status := a.status })
    else none))

/-- `Repository.GetEventAttendees`. -/
def GetEventAttendees (db : DB) (eventID : Int) :
    Option (List AttendeeRow) :=
  rowsToSlice (db.attendees.filter (fun a => a.eventID == eventID))

/-- Join one invitation row with its event and inviter, as the SELECT of
the invitation detail queries does (INNER JOIN drops unmatched rows). -/
def invitationDetails (db : DB) (i : InvitationRow) :
    Option InvitationWithDetails := do
  let e ← db.events.find? (fun e => e.id == i.eventID)
  let u ← db.users.find? (fun u => u.id == i.inviterID)
  pure { invitation := i, eventTitle := e.title, eventDate := e.date,
         eventTime := e.time, eventLocation := e.location,
         inviterEmail := u.email }

/-- `Repository.GetInvitationsByEmail`. -/
def GetInvitationsByEmail (db : DB) (email : String) :
    Option (List InvitationWithDetails) :=
  rowsToSlice ((db.invitations.filter
    (fun i => i.inviteeEmail == email)).filterMap (invitationDetails db))

/-- `Repository.GetInvitationsByEventID`. -/
def GetInvitationsByEventID (db : DB) (eventID : Int) :
    Option (List InvitationWithDetails) :=
  rowsToSlice ((db.invitations.filter
    (fun i => i.eventID == eventID)).filterMap (invitationDetails db))

end Repo

namespace Service

/-- `Service.GetAllEvents`: nil result converted to the empty slice. -/
def GetAllEvents (db : DB) : Except String (Option (List EventRow)) :=
  match Repo.GetAllEvents db with
  | none => .ok (some [])
  | some l => .ok (some l)

/-- `Service.GetEventsByOrganizerID`. -/
def GetEventsByOrganizerID (db : DB) (organizerID : Int) :
    Except String (Option (List EventRow)) :=
  if organizerID ≤ 0 then .error "invalid organizer ID"
  else match Repo.GetEventsByOrganizerID db organizerID with
  | none => .ok (some [])
  | some l => .ok (some l)

/-- `Service.GetMyAttendingEvents`. -/
def GetMyAttendingEvents (db : DB) (userID : Int) :
    Except String (Option (List EventWithAttendeeInfo)) :=
  if userID ≤ 0 then .error "invalid user ID"
  else match Repo.GetEventsByAttendeeID db userID with
  | none => .ok (some [])
  | some l => .ok (some l)

/-- `Service.GetEventAttendees`. -/
def GetEventAttendees (db : DB) (eventID : Int) :
    Except String (Option (List AttendeeRow)) :=
  if eventID ≤ 0 then .error "invalid event ID"
  else match Repo.GetEventAttendees db eventID with
  | none => .ok (some [])
  | some l => .ok (some l)

/-- `Service.GetMyOrganizedEvents`. -/
def GetMyOrganizedEvents (db : DB) (organizerID : Int) :
    Except String (Option (List EventRow)) :=
  if organizerID ≤ 0 then .error "invalid organizer ID"
  else match Repo.GetMyOrganizedEvents db organizerID with
  | none => .ok (some [])
  | some l => .ok (some l)

end Service

/-! ## Invitation service (`internal/invitation`, service source file) -/

namespace Invitations

/-- `invitation.Service.GetMyInvitations`. -/
def GetMyInvitations (db : DB) (email : String) :
    Except String (Option (List InvitationWithDetails)) :=
  match Repo.GetInvitationsByEmail db email with
  | none => .ok (some [])
  | some l => .ok (some l)

/-- `invitation.Service.GetEventInvitations`. -/
def GetEventInvitations (db : DB) (eventID : Int) :
    Except String (Option (List InvitationWithDetails)) :=
  match Repo.GetInvitationsByEventID db eventID with
  | none => .ok (some [])
  | some l => .ok (some l)

/-- `invitation.Service.RespondToInvitation`: status whitelist, lookup,
invitee-email ownership check, pending check, then the status update.  The
Go source notes that acceptance deliberately does not touch
event_attendees. -/
def RespondToInvitation (db : DB) (invitationID : Int) (status : String)
    (userEmail : String) (now : Nat) : Except String DB := do
  if status ≠ "accepted" ∧ status ≠ "declined" then
    throw "invalid status: must be \x27accepted\x27 or \x27declined\x27"
  match Repo.GetInvitationByID db invitationID with
  | .error e => throw ("invitation not found: " ++ e)
  | .ok invitation => do
    if invitation.inviteeEmail ≠ userEmail then
      throw "you are not authorized to respond to this invitation"
    if invitation.status ≠ "pending" then
      throw "invitation has already been responded to"
    Repo.UpdateInvitationStatus db invitationID status now

end Invitations

/-! ## Auth service (`internal/auth/service.go`) -/

namespace Auth

/-- The response of a successful login. -/
structure AuthResponse where
  token : String
deriving DecidableEq, Repr

/-- JWT signing is an external primitive; modelled as an injective encoding
of the embedded user id. -/
def generateToken (userID : Int) : String :=
  "signed-token-for-user-" ++ toString userID

/-- `auth.Service.Login`: email lookup, then the bcrypt hash comparison
(the external `bcrypt.CompareHashAndPassword`, abstracted as the `check`
parameter applied to the stored hash and the supplied password).  Both
failure paths return the same message. -/
def Login (check : String → String → Bool) (db : DB)
    (email password : String) : Except String AuthResponse :=
  match db.users.find? (fun u => u.email == email) with
  | none => .error "invalid email or password"
  | some u =>
    if check u.passwordHash password then
      .ok { token := generateToken u.id }
    else
      .error "invalid email or password"

end Auth

/-! ## Fixtures used by witnesses and counterexamples -/

/-- The database state after a successful `RespondToInvitation`. -/
def respondResult (db : DB) (invitationID : Int) (status : String)
    (now : Nat) : DB :=
  { db with invitations :=
      db.invitations.map (Repo.setInvitationStatus invitationID status now) }

/-- Fixture database for the witnesses: two users, one event organized by
user 1, the organizer attendee row, one pending invitation for user 2. -/
def dbW : DB :=
  ⟨[⟨1, "alice@x.com", "h1", 0⟩, ⟨2, "bob@x.com", "h2", 0⟩],
   [⟨1, "T", "", ⟨2025, 12, 15⟩, ⟨9, 0, 0⟩, "L", 1, 0⟩],
   [⟨1, 1, 1, "organizer", "going", 0⟩],
   [⟨1, 1, 1, "bob@x.com", some 2, "attendee", "pending", "", 0, none⟩],
   2, 2, 2⟩

/-- The event row stored in `dbW`. -/
def evW : EventRow := ⟨1, "T", "", ⟨2025, 12, 15⟩, ⟨9, 0, 0⟩, "L", 1, 0⟩

/-- A patch touching only the location. -/
def reqLocW : UpdateEventRequest := ⟨"", "", "", "", "NewLoc"⟩

/-- The pending invitation row stored in `dbW`. -/
def invW : InvitationRow :=
  ⟨1, 1, 1, "bob@x.com", some 2, "attendee", "pending", "", 0, none⟩

/-- The event row of `dbW` after updating only the location. -/
def evW2 : EventRow := ⟨1, "T", "", ⟨2025, 12, 15⟩, ⟨9, 0, 0⟩, "NewLoc", 1, 0⟩

/-- An empty database. -/
def dbE : DB := ⟨[], [], [], [], 1, 1, 1⟩

/-- A well-formed create request for 2025-12-15 09:00:00. -/
def reqC3 : CreateEventRequest := ⟨"T", "", "2025-12-15", "09:00:00", "L"⟩

/-- The instant 2025-12-15 09:00:00 UTC in nanoseconds. -/
def nowEq : Nat := toNanos ⟨2025, 12, 15⟩ ⟨9, 0, 0⟩

/-- A patch supplying a past date and time (relative to `nowEq`). -/
def reqPast : UpdateEventRequest := ⟨"", "", "2020-01-01", "00:00:00", ""⟩

/-- A patch supplying only a (past) date. -/
def reqDateOnly : UpdateEventRequest := ⟨"", "", "2020-01-01", "", ""⟩

/-- A create request whose date-time lies before `nowEq`. -/
def reqPastCreate : CreateEventRequest := ⟨"T", "", "2020-01-01", "00:00:00", "L"⟩

/-- The event row produced by `Service.CreateEvent dbE reqC3 1 0`. -/
def evC8 : EventRow := ⟨1, "T", "", ⟨2025, 12, 15⟩, ⟨9, 0, 0⟩, "L", 1, 0⟩

/-- The database produced by `Service.CreateEvent dbE reqC3 1 0`. -/
def dbC8 : DB := ⟨[], [evC8], [⟨1, 1, 1, "organizer", "going", 0⟩], [], 2, 2, 1⟩

/-- The database state after a successful `JoinEvent`. -/
def joinResult (db : DB) (userID eventID : Int) (now : Nat) : DB :=
  { db with
    attendees := db.attendees ++
      [⟨db.nextAttendeeId, userID, eventID, "attendee", "going", now⟩],
    nextAttendeeId := db.nextAttendeeId + 1 }

/-- The database state after a successful `InviteUserToEvent`. -/
def inviteResult (db : DB) (eventID userID : Int) (role : String)
    (now : Nat) : DB :=
  { db with
    attendees := db.attendees ++
      [⟨db.nextAttendeeId, userID, eventID, role, "going", now⟩],
    nextAttendeeId := db.nextAttendeeId + 1 }

/-! ## Helper lemmas -/

/-- A successful `validateUpdateDateTime` guarantees that every supplied
date/time field parses. -/
theorem validateUpdateDateTime_ok_parse (req : UpdateEventRequest) (now : Nat)
    (h : Service.validateUpdateDateTime req now = .ok ()) :
    (req.date ≠ "" → (parseDate req.date).isSome) ∧
    (req.time ≠ "" → (parseTimeOfDay req.time).isSome) := by
  unfold Service.validateUpdateDateTime at h
  by_cases hb : req.date ≠ "" ∧ req.time ≠ ""
  · rw [if_pos hb] at h
    simp only [bind, Except.bind, Service.validateDateTime,
      Service.validateDateFormat, Service.validateTimeFormat] at h
    constructor
    · intro _
      cases hpd : parseDate req.date with
      | some d => simp
      | none => rw [hpd] at h; simp at h
    · intro _
      cases hpd : parseDate req.date with
      | none => rw [hpd] at h; simp at h
      | some d =>
        rw [hpd] at h
        cases hpt : parseTimeOfDay req.time with
        | some t => simp
        | none => rw [hpt] at h; simp at h
  · rw [if_neg hb] at h
    push_neg at hb
    by_cases hd : req.date ≠ ""
    · rw [if_pos hd] at h
      simp only [Service.validateDateFormat] at h
      refine ⟨fun _ => ?_, fun ht => absurd (hb hd) ht⟩
      cases hpd : parseDate req.date with
      | some d => simp
      | none => rw [hpd] at h; simp at h
    · push_neg at hd
      rw [if_neg (by simp [hd])] at h
      refine ⟨fun hc => absurd hd hc, fun ht => ?_⟩
      rw [if_pos ht] at h
      simp only [Service.validateTimeFormat] at h
      cases hpt : parseTimeOfDay req.time with
      | some t => simp
      | none => rw [hpt] at h; simp at h

/-- `applyDateField` succeeds when a supplied date parses. -/
theorem applyDateField_ok (req : UpdateEventRequest) (e : EventRow)
    (hd : req.date ≠ "" → (parseDate req.date).isSome) :
    ∃ r, Repo.applyDateField req e = .ok r := by
  unfold Repo.applyDateField
  by_cases h : req.date ≠ ""
  · obtain ⟨d, hpd⟩ := Option.isSome_iff_exists.mp (hd h)
    rw [if_pos h, hpd]
    exact ⟨_, rfl⟩
  · rw [if_neg h]
    exact ⟨_, rfl⟩

/-- `applyTimeField` succeeds when a supplied time parses. -/
theorem applyTimeField_ok (req : UpdateEventRequest) (e : EventRow)
    (ht : req.time ≠ "" → (parseTimeOfDay req.time).isSome) :
    ∃ r, Repo.applyTimeField req e = .ok r := by
  unfold Repo.applyTimeField
  by_cases h : req.time ≠ ""
  · obtain ⟨t, hpt⟩ := Option.isSome_iff_exists.mp (ht h)
    rw [if_pos h, hpt]
    exact ⟨_, rfl⟩
  · rw [if_neg h]
    exact ⟨_, rfl⟩

/-- `Repo.UpdateEvent` succeeds whenever the event exists and each supplied
date/time field parses. -/
theorem repoUpdateEvent_ok (db : DB) (eventID : Int) (req : UpdateEventRequest)
    (e : EventRow) (hfind : Repo.GetEventByID db eventID = .ok e)
    (hd : req.date ≠ "" → (parseDate req.date).isSome)
    (ht : req.time ≠ "" → (parseTimeOfDay req.time).isSome) :
    ∃ ev db1, Repo.UpdateEvent db eventID req = .ok (ev, db1) := by
  unfold Repo.UpdateEvent
  simp only [bind, Except.bind, hfind, pure, Except.pure]
  obtain ⟨r1, h1⟩ :=
    applyDateField_ok req (Repo.applyDescription req (Repo.applyTitle req e)) hd
  obtain ⟨r2, h2⟩ := applyTimeField_ok req r1 ht
  simp only [h1, h2]
  exact ⟨_, _, rfl⟩

/-- `Repo.DeleteEvent` succeeds whenever the event exists. -/
theorem repoDeleteEvent_ok (db : DB) (eventID : Int) (e : EventRow)
    (hfind : Repo.GetEventByID db eventID = .ok e) :
    ∃ db1, Repo.DeleteEvent db eventID = .ok db1 := by
  unfold Repo.GetEventByID at hfind
  unfold Repo.DeleteEvent
  cases hf : db.events.find? (fun x => x.id == eventID) with
  | none => rw [hf] at hfind; simp at hfind
  | some a =>
    rw [hf] at hfind
    have hmem := List.mem_of_find?_eq_some hf
    have hpred := List.find?_some hf
    rw [if_pos (List.any_eq_true.mpr ⟨a, hmem, hpred⟩)]
    exact ⟨_, rfl⟩

/-- `find?` commutes with a map that does not change the predicate. -/
theorem find?_map_of_pres {α : Type} (p : α → Bool) (f : α → α)
    (hp : ∀ a, p (f a) = p a) :
    ∀ (l : List α) (a : α), l.find? p = some a →
      (l.map f).find? p = some (f a) := by
  intro l
  induction l with
  | nil => intro a h; simp at h
  | cons x xs ih =>
    intro a h
    by_cases hx : p x
    · rw [List.find?_cons_of_pos _ hx] at h
      rw [List.map_cons, List.find?_cons_of_pos _ (by rw [hp]; exact hx)]
      simp only [Option.some.injEq] at h
      rw [h]
    · rw [List.find?_cons_of_neg _ hx] at h
      rw [List.map_cons, List.find?_cons_of_neg _ (by rw [hp]; exact hx)]
      exact ih a h

/-- A successful `Repo.GetInvitationByID` is a successful `find?`. -/
theorem getInvitationByID_find (db : DB) (k : Int) (inv : InvitationRow)
    (h : Repo.GetInvitationByID db k = .ok inv) :
    db.invitations.find? (fun i => i.id == k) = some inv := by
  unfold Repo.GetInvitationByID at h
  cases hf : db.invitations.find? (fun i => i.id == k) with
  | none => rw [hf] at h; simp at h
  | some a => rw [hf] at h; simp only [Except.ok.injEq] at h; rw [← h]

/-- A successful `Repo.GetEventByID` is a successful `find?`. -/
theorem getEventByID_find (db : DB) (k : Int) (e : EventRow)
    (h : Repo.GetEventByID db k = .ok e) :
    db.events.find? (fun x => x.id == k) = some e := by
  unfold Repo.GetEventByID at h
  cases hf : db.events.find? (fun x => x.id == k) with
  | none => rw [hf] at h; simp at h
  | some a => rw [hf] at h; simp only [Except.ok.injEq] at h; rw [← h]

/-- `setInvitationStatus` does not change the id of a row. -/
theorem setInvitationStatus_id (k : Int) (s : String) (n : Nat)
    (i : InvitationRow) :
    ((Repo.setInvitationStatus k s n i).id == k) = (i.id == k) := by
  unfold Repo.setInvitationStatus
  split <;> rfl

/-- When the caller owns the event and the date/time branch validates,
`Service.UpdateEvent` reduces to the repository update. -/
theorem serviceUpdateEvent_ok_branch (db : DB) (eventID : Int)
    (req : UpdateEventRequest) (organizerID : Int) (now : Nat) (e : EventRow)
    (hpos : 0 < eventID) (hfind : Repo.GetEventByID db eventID = .ok e)
    (horg : e.organizerID = organizerID)
    (hval : Service.validateUpdateDateTime req now = .ok ()) :
    Service.UpdateEvent db eventID req organizerID now =
      Repo.UpdateEvent db eventID req := by
  simp only [Service.UpdateEvent, bind, Except.bind, throw, throwThe,
    MonadExceptOf.throw, pure, Except.pure, hfind]
  rw [if_neg (by omega), if_neg (by rw [horg]; simp), hval]

/-- When the caller owns the event, `Service.DeleteEvent` reduces to the
repository delete. -/
theorem serviceDeleteEvent_ok_branch (db : DB) (eventID organizerID : Int)
    (e : EventRow) (hpos : 0 < eventID)
    (hfind : Repo.GetEventByID db eventID = .ok e)
    (horg : e.organizerID = organizerID) :
    Service.DeleteEvent db eventID organizerID = Repo.DeleteEvent db eventID := by
  simp only [Service.DeleteEvent, bind, Except.bind, throw, throwThe,
    MonadExceptOf.throw, pure, Except.pure, hfind]
  rw [if_neg (by omega), if_neg (by rw [horg]; simp)]

/-! ## Claim theorems -/

/-- C1: for every caller and every existing event, `UpdateEvent` and
`DeleteEvent` fail with the authorization errors "you are not authorized to
update/delete this event" whenever the caller differs from the stored
organizer, and succeed (no authorization error) when the caller is the
organizer and the remaining preconditions (positive id, date/time
validation) hold. -/
theorem updateDeleteEvent_authorization (db : DB) (eventID callerID : Int)
    (req : UpdateEventRequest) (now : Nat) (e : EventRow)
    (hpos : 0 < eventID) (hfind : Repo.GetEventByID db eventID = .ok e) :
    (e.organizerID ≠ callerID →
      Service.UpdateEvent db eventID req callerID now =
        .error "you are not authorized to update this event" ∧
      Service.DeleteEvent db eventID callerID =
        .error "you are not authorized to delete this event") ∧
    (e.organizerID = callerID →
      (Service.validateUpdateDateTime req now = .ok () →
        ∃ ev db1, Service.UpdateEvent db eventID req callerID now =
          .ok (ev, db1)) ∧
      ∃ db2, Service.DeleteEvent db eventID callerID = .ok db2) := by
  constructor
  · intro hne
    constructor
    · simp only [Service.UpdateEvent, bind, Except.bind, throw, throwThe,
        MonadExceptOf.throw, pure, Except.pure, hfind]
      rw [if_neg (by omega), if_pos hne]
    · simp only [Service.DeleteEvent, bind, Except.bind, throw, throwThe,
        MonadExceptOf.throw, pure, Except.pure, hfind]
      rw [if_neg (by omega), if_pos hne]
  · intro horg
    constructor
    · intro hval
      rw [serviceUpdateEvent_ok_branch db eventID req callerID now e hpos
        hfind horg hval]
      obtain ⟨hd, ht⟩ := validateUpdateDateTime_ok_parse req now hval
      exact repoUpdateEvent_ok db eventID req e hfind hd ht
    · rw [serviceDeleteEvent_ok_branch db eventID callerID e hpos hfind horg]
      exact repoDeleteEvent_ok db eventID e hfind


/-- C1 witness: on `dbW`, caller 2 is rejected and the organizer (user 1)
succeeds, for both update and delete. -/
theorem updateDeleteEvent_authorization_witness :
    Service.UpdateEvent dbW 1 reqLocW 2 0 =
      .error "you are not authorized to update this event" ∧
    Service.DeleteEvent dbW 1 2 =
      .error "you are not authorized to delete this event" ∧
    (∃ ev db1, Service.UpdateEvent dbW 1 reqLocW 1 0 = .ok (ev, db1)) ∧
    ∃ db2, Service.DeleteEvent dbW 1 1 = .ok db2 := by
  have hfind : Repo.GetEventByID dbW 1 = .ok evW := rfl
  have h2 := updateDeleteEvent_authorization dbW 1 2 reqLocW 0 evW
    (by norm_num) hfind
  have h1 := updateDeleteEvent_authorization dbW 1 1 reqLocW 0 evW
    (by norm_num) hfind
  have hne : evW.organizerID ≠ 2 := by decide
  refine ⟨(h2.1 hne).1, (h2.1 hne).2, (h1.2 rfl).1 rfl, (h1.2 rfl).2⟩


/-- C2: `RespondToInvitation` permits only pending-to-accepted and
pending-to-declined, exactly once: a non-pending invitation is rejected
with the conflict error (so a second call fails), and a successful call
changes only the status and responded-at of the targeted invitation row;
in particular the attendees table is untouched. -/
theorem respondToInvitation_transitions (db : DB) (invitationID : Int)
    (status userEmail : String) (now now2 : Nat) (inv : InvitationRow)
    (hfind : Repo.GetInvitationByID db invitationID = .ok inv)
    (hmail : inv.inviteeEmail = userEmail) :
    (status ≠ "accepted" ∧ status ≠ "declined" →
      Invitations.RespondToInvitation db invitationID status userEmail now =
        .error "invalid status: must be \x27accepted\x27 or \x27declined\x27") ∧
    (status = "accepted" ∨ status = "declined" →
      (inv.status ≠ "pending" →
        Invitations.RespondToInvitation db invitationID status userEmail now =
          .error "invitation has already been responded to") ∧
      (inv.status = "pending" →
        Invitations.RespondToInvitation db invitationID status userEmail now =
          .ok (respondResult db invitationID status now) ∧
        (respondResult db invitationID status now).attendees = db.attendees ∧
        ∀ status2, status2 = "accepted" ∨ status2 = "declined" →
          Invitations.RespondToInvitation
            (respondResult db invitationID status now)
            invitationID status2 userEmail now2 =
          .error "invitation has already been responded to")) := by
  have hpred : (inv.id == invitationID) = true := by
    have h := List.find?_some (getInvitationByID_find db invitationID inv hfind)
    simpa using h
  constructor
  · intro hbad
    simp only [Invitations.RespondToInvitation, bind, Except.bind, throw,
      throwThe, MonadExceptOf.throw, pure, Except.pure]
    rw [if_pos hbad]
  · intro hvalid
    have hv : ¬ (status ≠ "accepted" ∧ status ≠ "declined") := by
      rcases hvalid with h | h <;> simp [h]
    constructor
    · intro hnp
      simp only [Invitations.RespondToInvitation, bind, Except.bind, throw,
        throwThe, MonadExceptOf.throw, pure, Except.pure, hfind]
      rw [if_neg hv, if_neg (by rw [hmail]; simp), if_pos hnp]
    · intro hp
      have hmain : Invitations.RespondToInvitation db invitationID status
          userEmail now = .ok (respondResult db invitationID status now) := by
        simp only [Invitations.RespondToInvitation, bind, Except.bind, throw,
          throwThe, MonadExceptOf.throw, pure, Except.pure, hfind]
        rw [if_neg hv, if_neg (by rw [hmail]; simp),
          if_neg (by rw [hp]; simp)]
        rfl
      refine ⟨hmain, rfl, ?_⟩
      intro status2 hvalid2
      have hv2 : ¬ (status2 ≠ "accepted" ∧ status2 ≠ "declined") := by
        rcases hvalid2 with h | h <;> simp [h]
      have hfind2 : Repo.GetInvitationByID
          (respondResult db invitationID status now) invitationID =
          .ok (Repo.setInvitationStatus invitationID status now inv) := by
        unfold Repo.GetInvitationByID respondResult
        rw [find?_map_of_pres _ _ (setInvitationStatus_id invitationID status now)
          db.invitations inv (getInvitationByID_find db invitationID inv hfind)]
      have hupd : Repo.setInvitationStatus invitationID status now inv =
          { inv with status := status, respondedAt := some now } := by
        unfold Repo.setInvitationStatus
        rw [if_pos hpred]
      simp only [Invitations.RespondToInvitation, bind, Except.bind, throw,
        throwThe, MonadExceptOf.throw, pure, Except.pure, hfind2, hupd]
      rw [if_neg hv2, if_neg (by rw [hmail]; simp)]
      rw [if_pos (by rcases hvalid with h | h <;> rw [h] <;> decide)]


/-- C2 witness: on `dbW`, accepting invitation 1 succeeds without touching
the attendees table, a second response fails with the conflict error, and
an invalid status is rejected. -/
theorem respondToInvitation_transitions_witness :
    Invitations.RespondToInvitation dbW 1 "accepted" "bob@x.com" 9 =
      .ok (respondResult dbW 1 "accepted" 9) ∧
    (respondResult dbW 1 "accepted" 9).attendees = dbW.attendees ∧
    Invitations.RespondToInvitation (respondResult dbW 1 "accepted" 9) 1
      "declined" "bob@x.com" 10 =
      .error "invitation has already been responded to" ∧
    Invitations.RespondToInvitation dbW 1 "maybe" "bob@x.com" 9 =
      .error "invalid status: must be \x27accepted\x27 or \x27declined\x27" := by
  have h := respondToInvitation_transitions dbW 1 "accepted" "bob@x.com" 9 10
    invW rfl rfl
  have h2 := respondToInvitation_transitions dbW 1 "maybe" "bob@x.com" 9 10
    invW rfl rfl
  obtain ⟨hok, hatt, hsecond⟩ := (h.2 (Or.inl rfl)).2 rfl
  exact ⟨hok, hatt, hsecond "declined" (Or.inr rfl), h2.1 (by decide)⟩

/-- `applyTitle` only touches the title, and not even that when the patch
title is empty. -/
theorem applyTitle_proj (u : UpdateEventRequest) (e : EventRow) :
    (Repo.applyTitle u e).description = e.description ∧
    (Repo.applyTitle u e).date = e.date ∧
    (Repo.applyTitle u e).time = e.time ∧
    (Repo.applyTitle u e).location = e.location ∧
    (Repo.applyTitle u e).id = e.id ∧
    (u.title = "" → (Repo.applyTitle u e).title = e.title) := by
  unfold Repo.applyTitle
  refine ⟨?_, ?_, ?_, ?_, ?_, ?_⟩ <;>
    first
    | (split <;> rfl)
    | (intro h; rw [if_neg (by simp [h])])

/-- `applyDescription` only touches the description. -/
theorem applyDescription_proj (u : UpdateEventRequest) (e : EventRow) :
    (Repo.applyDescription u e).title = e.title ∧
    (Repo.applyDescription u e).date = e.date ∧
    (Repo.applyDescription u e).time = e.time ∧
    (Repo.applyDescription u e).location = e.location ∧
    (Repo.applyDescription u e).id = e.id ∧
    (u.description = "" →
      (Repo.applyDescription u e).description = e.description) := by
  unfold Repo.applyDescription
  refine ⟨?_, ?_, ?_, ?_, ?_, ?_⟩ <;>
    first
    | (split <;> rfl)
    | (intro h; rw [if_neg (by simp [h])])

/-- `applyLocation` only touches the location. -/
theorem applyLocation_proj (u : UpdateEventRequest) (e : EventRow) :
    (Repo.applyLocation u e).title = e.title ∧
    (Repo.applyLocation u e).date = e.date ∧
    (Repo.applyLocation u e).time = e.time ∧
    (Repo.applyLocation u e).description = e.description ∧
    (Repo.applyLocation u e).id = e.id ∧
    (u.location = "" → (Repo.applyLocation u e).location = e.location) := by
  unfold Repo.applyLocation
  refine ⟨?_, ?_, ?_, ?_, ?_, ?_⟩ <;>
    first
    | (split <;> rfl)
    | (intro h; rw [if_neg (by simp [h])])

/-- A successful `applyDateField` only touches the date. -/
theorem applyDateField_proj (u : UpdateEventRequest) (e r : EventRow)
    (h : Repo.applyDateField u e = .ok r) :
    r.title = e.title ∧ r.description = e.description ∧ r.time = e.time ∧
    r.location = e.location ∧ r.id = e.id ∧
    (u.date = "" → r.date = e.date) := by
  unfold Repo.applyDateField at h
  by_cases hd : u.date ≠ ""
  · rw [if_pos hd] at h
    cases hpd : parseDate u.date with
    | none => rw [hpd] at h; simp at h
    | some d =>
      rw [hpd] at h
      simp only [Except.ok.injEq] at h
      rw [← h]
      exact ⟨rfl, rfl, rfl, rfl, rfl, fun hc => absurd hc hd⟩
  · rw [if_neg hd] at h
    simp only [Except.ok.injEq] at h
    rw [← h]
    exact ⟨rfl, rfl, rfl, rfl, rfl, fun _ => rfl⟩

/-- A successful `applyTimeField` only touches the time. -/
theorem applyTimeField_proj (u : UpdateEventRequest) (e r : EventRow)
    (h : Repo.applyTimeField u e = .ok r) :
    r.title = e.title ∧ r.description = e.description ∧ r.date = e.date ∧
    r.location = e.location ∧ r.id = e.id ∧
    (u.time = "" → r.time = e.time) := by
  unfold Repo.applyTimeField at h
  by_cases ht : u.time ≠ ""
  · rw [if_pos ht] at h
    cases hpt : parseTimeOfDay u.time with
    | none => rw [hpt] at h; simp at h
    | some t =>
      rw [hpt] at h
      simp only [Except.ok.injEq] at h
      rw [← h]
      exact ⟨rfl, rfl, rfl, rfl, rfl, fun hc => absurd hc ht⟩
  · rw [if_neg ht] at h
    simp only [Except.ok.injEq] at h
    rw [← h]
    exact ⟨rfl, rfl, rfl, rfl, rfl, fun _ => rfl⟩

/-- Field-by-field frame property of a successful `Repo.UpdateEvent`. -/
theorem repoUpdateEvent_frame (db : DB) (eventID : Int)
    (req : UpdateEventRequest) (cur : EventRow)
    (hfind : Repo.GetEventByID db eventID = .ok cur)
    (ev : EventRow) (db1 : DB)
    (hok : Repo.UpdateEvent db eventID req = .ok (ev, db1)) :
    (req.title = "" → ev.title = cur.title) ∧
    (req.description = "" → ev.description = cur.description) ∧
    (req.date = "" → ev.date = cur.date) ∧
    (req.time = "" → ev.time = cur.time) ∧
    (req.location = "" → ev.location = cur.location) ∧
    ev.id = cur.id ∧
    db1 = Repo.updateResult db eventID ev := by
  simp only [Repo.UpdateEvent, bind, Except.bind, pure, Except.pure, hfind]
    at hok
  cases h1 : Repo.applyDateField req
      (Repo.applyDescription req (Repo.applyTitle req cur)) with
  | error m => simp only [h1] at hok; exact absurd hok (by simp)
  | ok r1 =>
    simp only [h1] at hok
    cases h2 : Repo.applyTimeField req r1 with
    | error m => simp only [h2] at hok; exact absurd hok (by simp)
    | ok r2 =>
      simp only [h2] at hok
      simp only [Except.ok.injEq, Prod.mk.injEq] at hok
      obtain ⟨hev, hdb⟩ := hok
      obtain ⟨t1, t2, t3, t4, t5, t6⟩ := applyTitle_proj req cur
      obtain ⟨d1, d2, d3, d4, d5, d6⟩ :=
        applyDescription_proj req (Repo.applyTitle req cur)
      obtain ⟨f1, f2, f3, f4, f5, f6⟩ := applyDateField_proj req
        (Repo.applyDescription req (Repo.applyTitle req cur)) r1 h1
      obtain ⟨g1, g2, g3, g4, g5, g6⟩ := applyTimeField_proj req r1 r2 h2
      obtain ⟨l1, l2, l3, l4, l5, l6⟩ := applyLocation_proj req r2
      subst hev
      refine ⟨?_, ?_, ?_, ?_, ?_, ?_, hdb.symm⟩
      · intro h
        rw [l1, g1, f1, d1, t6 h]
      · intro h
        rw [l4, g2, f2, d6 h, t1]
      · intro h
        rw [l2, g3, f6 h, d2, t2]
      · intro h
        rw [l3, g6 h, f3, d3, t3]
      · intro h
        rw [l6 h, g4, f4, d4, t4]
      · rw [l5, g5, f5, d5, t5]

/-- A successful `Service.UpdateEvent` came from a successful
`Repo.UpdateEvent` on the same arguments. -/
theorem serviceUpdateEvent_ok_inv (db : DB) (eventID : Int)
    (req : UpdateEventRequest) (oid : Int) (now : Nat) (ev : EventRow)
    (db1 : DB) (hok : Service.UpdateEvent db eventID req oid now = .ok (ev, db1)) :
    Repo.UpdateEvent db eventID req = .ok (ev, db1) := by
  simp only [Service.UpdateEvent, bind, Except.bind, throw, throwThe,
    MonadExceptOf.throw, pure, Except.pure] at hok
  by_cases h0 : eventID ≤ 0
  · rw [if_pos h0] at hok
    simp at hok
  rw [if_neg h0] at hok
  cases hf : Repo.GetEventByID db eventID with
  | error e => simp only [hf] at hok; exact absurd hok (by simp)
  | ok e =>
    simp only [hf] at hok
    by_cases ho : e.organizerID ≠ oid
    · rw [if_pos ho] at hok
      simp at hok
    rw [if_neg ho] at hok
    cases hv : Service.validateUpdateDateTime req now with
    | error msg => simp only [hv] at hok; exact absurd hok (by simp)
    | ok u =>
      simp only [hv] at hok
      cases u
      exact hok

/-- C4: `UpdateEvent` applies only the non-empty string fields of the patch:
a field supplied as the empty string leaves both the returned event and the
stored row unchanged in that field; the stored row after the update is
exactly the returned event. -/
theorem updateEvent_frame_effect (db : DB) (eventID : Int)
    (req : UpdateEventRequest) (oid : Int) (now : Nat) (cur ev : EventRow)
    (db1 : DB) (hfind : Repo.GetEventByID db eventID = .ok cur)
    (hok : Service.UpdateEvent db eventID req oid now = .ok (ev, db1)) :
    (req.title = "" → ev.title = cur.title) ∧
    (req.description = "" → ev.description = cur.description) ∧
    (req.date = "" → ev.date = cur.date) ∧
    (req.time = "" → ev.time = cur.time) ∧
    (req.location = "" → ev.location = cur.location) ∧
    ev.id = cur.id ∧
    Repo.GetEventByID db1 eventID = .ok ev := by
  have hrepo := serviceUpdateEvent_ok_inv db eventID req oid now ev db1 hok
  obtain ⟨p1, p2, p3, p4, p5, p6, p7⟩ :=
    repoUpdateEvent_frame db eventID req cur hfind ev db1 hrepo
  have hcur : (cur.id == eventID) = true := by
    have h := List.find?_some (getEventByID_find db eventID cur hfind)
    simpa using h
  have hevid : (ev.id == eventID) = true := by
    rw [p6]; exact hcur
  refine ⟨p1, p2, p3, p4, p5, p6, ?_⟩
  rw [p7]
  unfold Repo.GetEventByID Repo.updateResult
  have hp : ∀ a : EventRow,
      (((fun e => if e.id == eventID then ev else e) a).id == eventID) =
        (a.id == eventID) := by
    intro a
    by_cases ha : (a.id == eventID) = true
    · simp only [ha, if_true]
      rw [hevid]
    · simp [ha]
  have hfm := find?_map_of_pres (fun e => e.id == eventID)
    (fun e => if e.id == eventID then ev else e) hp db.events cur
    (getEventByID_find db eventID cur hfind)
  simp only [hfm, hcur, if_true]

/-- C4 witness: on `dbW`, a patch supplying only the location leaves title,
date and time of the stored event unchanged. -/
theorem updateEvent_frame_effect_witness :
    evW2.title = evW.title ∧ evW2.date = evW.date ∧ evW2.time = evW.time ∧
    Repo.GetEventByID (Repo.updateResult dbW 1 evW2) 1 = .ok evW2 := by
  have hok : Service.UpdateEvent dbW 1 reqLocW 1 0 =
      .ok (evW2, Repo.updateResult dbW 1 evW2) := rfl
  have h := updateEvent_frame_effect dbW 1 reqLocW 1 0 evW evW2
    (Repo.updateResult dbW 1 evW2) rfl hok
  exact ⟨h.1 rfl, h.2.2.1 rfl, h.2.2.2.1 rfl, h.2.2.2.2.2.2⟩

/-- Inverting `dateTimeNanos`: a numeric result means both parses succeed. -/
theorem dateTimeNanos_some_inv (d t : String) (n : Nat)
    (h : dateTimeNanos d t = some n) :
    (parseDate d).isSome ∧ (parseTimeOfDay t).isSome := by
  unfold dateTimeNanos at h
  cases hpd : parseDate d with
  | none => rw [hpd] at h; simp at h
  | some dd =>
    cases hpt : parseTimeOfDay t with
    | none => rw [hpd, hpt] at h; simp at h
    | some tt => simp [hpd, hpt]

/-- `validateDateTime` succeeds when both parses succeed. -/
theorem validateDateTime_ok_of (d t : String)
    (hd : (parseDate d).isSome) (ht : (parseTimeOfDay t).isSome) :
    Service.validateDateTime d t = .ok () := by
  unfold Service.validateDateTime Service.validateDateFormat
    Service.validateTimeFormat
  obtain ⟨dd, hdd⟩ := Option.isSome_iff_exists.mp hd
  obtain ⟨tt, htt⟩ := Option.isSome_iff_exists.mp ht
  simp [hdd, htt, bind, Except.bind]

/-- `validateFutureEvent` rejects an instant strictly before `now`. -/
theorem validateFutureEvent_lt (d t : String) (n now : Nat)
    (h : dateTimeNanos d t = some n) (hlt : n < now) :
    Service.validateFutureEvent d t now =
      .error "event date and time must be in the future" := by
  unfold Service.validateFutureEvent
  simp only [h]
  rw [if_pos hlt]

/-- `validateFutureEvent` accepts any instant at or after `now`. -/
theorem validateFutureEvent_ge (d t : String) (n now : Nat)
    (h : dateTimeNanos d t = some n) (hge : now ≤ n) :
    Service.validateFutureEvent d t now = .ok () := by
  unfold Service.validateFutureEvent
  simp only [h]
  rw [if_neg (by omega)]

/-- When the caller owns the event and the date/time branch fails,
`Service.UpdateEvent` returns that branch error. -/
theorem serviceUpdateEvent_err_branch (db : DB) (eventID : Int)
    (req : UpdateEventRequest) (oid : Int) (now : Nat) (e : EventRow)
    (msg : String) (hpos : 0 < eventID)
    (hfind : Repo.GetEventByID db eventID = .ok e)
    (horg : e.organizerID = oid)
    (hval : Service.validateUpdateDateTime req now = .error msg) :
    Service.UpdateEvent db eventID req oid now = .error msg := by
  simp only [Service.UpdateEvent, bind, Except.bind, throw, throwThe,
    MonadExceptOf.throw, pure, Except.pure, hfind]
  rw [if_neg (by omega), if_neg (by rw [horg]; simp), hval]

/-- A successful `insertAttendee`: the pair was absent and exactly one row
was appended. -/
theorem insertAttendee_ok_inv (db : DB) (u e : Int) (r st : String)
    (now : Nat) (db1 : DB)
    (h : Repo.insertAttendee db u e r st now = .ok db1) :
    attendeePairExists db u e = false ∧
    db1.attendees = db.attendees ++ [⟨db.nextAttendeeId, u, e, r, st, now⟩] ∧
    db1.events = db.events ∧ db1.invitations = db.invitations ∧
    db1.users = db.users ∧ db1.nextEventId = db.nextEventId := by
  unfold Repo.insertAttendee at h
  by_cases hex : attendeePairExists db u e
  · rw [if_pos hex] at h
    exact absurd h (by simp)
  · rw [if_neg hex] at h
    simp only [Except.ok.injEq] at h
    rw [← h]
    exact ⟨by simpa using hex, rfl, rfl, rfl, rfl, rfl⟩

/-- A successful `AddOrganizerAsAttendee` is a successful `insertAttendee`
with role organizer and status going. -/
theorem addOrganizerAsAttendee_ok_inv (db : DB) (u e : Int) (now : Nat)
    (db1 : DB) (h : Repo.AddOrganizerAsAttendee db u e now = .ok db1) :
    Repo.insertAttendee db u e "organizer" "going" now = .ok db1 := by
  unfold Repo.AddOrganizerAsAttendee at h
  cases hi : Repo.insertAttendee db u e "organizer" "going" now with
  | ok d => simp only [hi] at h; rw [h]
  | error m => simp only [hi] at h; exact absurd h (by simp)

/-- Everything a successful `Service.CreateEvent` implies: the validations
passed, the combined instant is not before `now`, the event row was
appended, and the organizer attendee row was appended. -/
theorem serviceCreateEvent_ok_inv (db : DB) (req : CreateEventRequest)
    (oid : Int) (now : Nat) (ev : EventRow) (db1 : DB)
    (hok : Service.CreateEvent db req oid now = .ok (ev, db1)) :
    Service.validateCreateRequest req = .ok () ∧
    (∃ n, dateTimeNanos req.date req.time = some n ∧ now ≤ n) ∧
    ev.id = db.nextEventId ∧ ev.organizerID = oid ∧ ev.title = req.title ∧
    db1.events = db.events ++ [ev] ∧
    db1.attendees = db.attendees ++
      [⟨db.nextAttendeeId, oid, ev.id, "organizer", "going", now⟩] := by
  simp only [Service.CreateEvent, bind, Except.bind, throw, throwThe,
    MonadExceptOf.throw, pure, Except.pure] at hok
  cases hcr : Service.validateCreateRequest req with
  | error m => simp only [hcr] at hok; exact absurd hok (by simp)
  | ok u0 =>
    cases u0
    simp only [hcr] at hok
    cases hvdt : Service.validateDateTime req.date req.time with
    | error m => simp only [hvdt] at hok; exact absurd hok (by simp)
    | ok u1 =>
      cases u1
      simp only [hvdt] at hok
      cases hvf : Service.validateFutureEvent req.date req.time now with
      | error m => simp only [hvf] at hok; exact absurd hok (by simp)
      | ok u2 =>
        cases u2
        simp only [hvf] at hok
        have hfut : ∃ n, dateTimeNanos req.date req.time = some n ∧ now ≤ n := by
          unfold Service.validateFutureEvent at hvf
          cases hn : dateTimeNanos req.date req.time with
          | none => rw [hn] at hvf; simp at hvf
          | some n =>
            refine ⟨n, rfl, ?_⟩
            simp only [hn] at hvf
            by_cases hlt : n < now
            · rw [if_pos hlt] at hvf; simp at hvf
            · omega
        cases hpd : parseDate req.date with
        | none => simp only [hpd] at hok; exact absurd hok (by simp)
        | some d =>
          cases hpt : parseTimeOfDay req.time with
          | none => simp only [hpd, hpt] at hok; exact absurd hok (by simp)
          | some t =>
            simp only [hpd, hpt, Repo.CreateEvent] at hok
            split at hok
            · next db2 heq =>
              simp only [Except.ok.injEq, Prod.mk.injEq] at hok
              obtain ⟨hev, hdb⟩ := hok
              obtain ⟨hex, hatt, hevs, _, _, _⟩ := insertAttendee_ok_inv _ _ _
                _ _ _ _ (addOrganizerAsAttendee_ok_inv _ _ _ _ _ heq)
              subst hdb
              subst hev
              refine ⟨rfl, hfut, rfl, rfl, rfl, ?_, ?_⟩
              · rw [hevs]
              · rw [hatt]
            · next e heq => exact absurd hok (by simp)

/-- `Service.CreateEvent` succeeds on a well-formed database when the field
validations pass and the combined instant is at or after `now`. -/
theorem serviceCreateEvent_ok_of (db : DB) (req : CreateEventRequest)
    (oid : Int) (now n : Nat) (hWF : DB.WF db)
    (hcr : Service.validateCreateRequest req = .ok ())
    (hn : dateTimeNanos req.date req.time = some n) (hge : now ≤ n) :
    ∃ ev db1, Service.CreateEvent db req oid now = .ok (ev, db1) := by
  obtain ⟨hpd2, hpt2⟩ := dateTimeNanos_some_inv req.date req.time n hn
  obtain ⟨d, hpd⟩ := Option.isSome_iff_exists.mp hpd2
  obtain ⟨t, hpt⟩ := Option.isSome_iff_exists.mp hpt2
  have hvdt := validateDateTime_ok_of req.date req.time hpd2 hpt2
  have hvf := validateFutureEvent_ge req.date req.time n now hn hge
  have hnotex : (db.attendees.any
      (fun a => a.userID == oid && a.eventID == db.nextEventId)) = false := by
    rw [List.any_eq_false]
    intro a ha hcontra
    have h2 := (Bool.and_eq_true _ _).mp hcontra
    have h3 : a.eventID = db.nextEventId := by simpa using h2.2
    have h4 := hWF a ha
    omega
  simp only [Service.CreateEvent, bind, Except.bind, throw, throwThe,
    MonadExceptOf.throw, pure, Except.pure, hcr, hvdt, hvf, hpd, hpt,
    Repo.CreateEvent, Repo.AddOrganizerAsAttendee, Repo.insertAttendee,
    attendeePairExists]
  simp only [hnotex]
  exact ⟨_, _, rfl⟩

/-- C3 (amended): with the field and format validations passed, CreateEvent
fails with the futurity ValidationError exactly when the combined date-time
is strictly before the current time; at or after the current time (boundary
included) it succeeds on a well-formed database, and any success implies
the validations passed and the instant was at or after now.  (The original
claim said "less than or equal to now fails"; the code uses a strict
`Before(now)` comparison, so equality succeeds.) -/
theorem createEvent_future_validation (db : DB) (req : CreateEventRequest)
    (oid : Int) (now : Nat) (hWF : DB.WF db) :
    (∀ ev db1, Service.CreateEvent db req oid now = .ok (ev, db1) →
      Service.validateCreateRequest req = .ok () ∧
      ∃ n, dateTimeNanos req.date req.time = some n ∧ now ≤ n) ∧
    (∀ n, dateTimeNanos req.date req.time = some n →
      Service.validateCreateRequest req = .ok () → n < now →
      Service.CreateEvent db req oid now =
        .error "event date and time must be in the future") ∧
    (∀ n, dateTimeNanos req.date req.time = some n →
      Service.validateCreateRequest req = .ok () → now ≤ n →
      ∃ ev db1, Service.CreateEvent db req oid now = .ok (ev, db1)) := by
  refine ⟨?_, ?_, ?_⟩
  · intro ev db1 hok
    obtain ⟨h1, h2, _⟩ := serviceCreateEvent_ok_inv db req oid now ev db1 hok
    exact ⟨h1, h2⟩
  · intro n hn hcr hlt
    obtain ⟨hpd2, hpt2⟩ := dateTimeNanos_some_inv req.date req.time n hn
    have hvdt := validateDateTime_ok_of req.date req.time hpd2 hpt2
    have hvf := validateFutureEvent_lt req.date req.time n now hn hlt
    simp only [Service.CreateEvent, bind, Except.bind, throw, throwThe,
      MonadExceptOf.throw, pure, Except.pure, hcr, hvdt, hvf]
  · intro n hn hcr hge
    exact serviceCreateEvent_ok_of db req oid now n hWF hcr hn hge

/-- C3 counterexample: a create request whose combined date-time equals the
current instant exactly is accepted, refuting "less than or equal to now
fails with ValidationError". -/
theorem createEvent_boundary_cex :
    dateTimeNanos reqC3.date reqC3.time = some nowEq ∧
    (Service.CreateEvent dbE reqC3 1 nowEq).isOk = true := ⟨rfl, rfl⟩

/-- C3 witness: a strictly past request fails with the futurity error and a
strictly future request succeeds. -/
theorem createEvent_future_validation_witness :
    Service.CreateEvent dbE reqPastCreate 1 nowEq =
      .error "event date and time must be in the future" ∧
    ∃ ev db1, Service.CreateEvent dbE reqC3 1 (nowEq - 1000000000) =
      .ok (ev, db1) := by
  have hWF : DB.WF dbE := by intro a ha; simp [dbE] at ha
  have h := createEvent_future_validation dbE reqPastCreate 1 nowEq hWF
  have h2 := createEvent_future_validation dbE reqC3 1 (nowEq - 1000000000) hWF
  refine ⟨h.2.1 (toNanos ⟨2020, 1, 1⟩ ⟨0, 0, 0⟩) rfl rfl (by decide), ?_⟩
  exact h2.2.2 nowEq rfl rfl (by decide)

/-- C5 (amended): on update, when both date and time are supplied the pair
is format-checked and additionally required not to lie strictly before the
current time (the same futurity check as create, contrary to the original
claim); when only one is supplied, only that format is checked and the
outcome is the bare repository update, independent of the current time. -/
theorem updateEvent_datetime_validation (db : DB) (eventID : Int)
    (req : UpdateEventRequest) (oid : Int) (now : Nat) (e : EventRow)
    (hpos : 0 < eventID) (hfind : Repo.GetEventByID db eventID = .ok e)
    (horg : e.organizerID = oid) :
    (req.date ≠ "" → req.time ≠ "" →
      (∀ n, dateTimeNanos req.date req.time = some n → n < now →
        Service.UpdateEvent db eventID req oid now =
          .error "event date and time must be in the future") ∧
      (∀ n, dateTimeNanos req.date req.time = some n → now ≤ n →
        Service.UpdateEvent db eventID req oid now =
          Repo.UpdateEvent db eventID req) ∧
      (∀ msg, Service.validateDateTime req.date req.time = .error msg →
        Service.UpdateEvent db eventID req oid now = .error msg)) ∧
    (req.date ≠ "" → req.time = "" →
      Service.validateDateFormat req.date = .ok () →
      Service.UpdateEvent db eventID req oid now =
        Repo.UpdateEvent db eventID req) ∧
    (req.date = "" → req.time ≠ "" →
      Service.validateTimeFormat req.time = .ok () →
      Service.UpdateEvent db eventID req oid now =
        Repo.UpdateEvent db eventID req) := by
  refine ⟨fun hd ht => ⟨?_, ?_, ?_⟩, fun hd ht hfmt => ?_, fun hd ht hfmt => ?_⟩
  · intro n hn hlt
    apply serviceUpdateEvent_err_branch db eventID req oid now e _ hpos hfind horg
    unfold Service.validateUpdateDateTime
    rw [if_pos ⟨hd, ht⟩]
    obtain ⟨hpd, hpt⟩ := dateTimeNanos_some_inv req.date req.time n hn
    rw [show Service.validateDateTime req.date req.time = .ok () from
      validateDateTime_ok_of req.date req.time hpd hpt]
    rw [show Service.validateFutureEvent req.date req.time now =
      .error "event date and time must be in the future" from
      validateFutureEvent_lt req.date req.time n now hn hlt]
    rfl
  · intro n hn hge
    apply serviceUpdateEvent_ok_branch db eventID req oid now e hpos hfind horg
    unfold Service.validateUpdateDateTime
    rw [if_pos ⟨hd, ht⟩]
    obtain ⟨hpd, hpt⟩ := dateTimeNanos_some_inv req.date req.time n hn
    rw [show Service.validateDateTime req.date req.time = .ok () from
      validateDateTime_ok_of req.date req.time hpd hpt]
    rw [show Service.validateFutureEvent req.date req.time now = .ok () from
      validateFutureEvent_ge req.date req.time n now hn hge]
    rfl
  · intro msg hmsg
    apply serviceUpdateEvent_err_branch db eventID req oid now e _ hpos hfind horg
    unfold Service.validateUpdateDateTime
    rw [if_pos ⟨hd, ht⟩]
    rw [hmsg]
    rfl
  · apply serviceUpdateEvent_ok_branch db eventID req oid now e hpos hfind horg
    unfold Service.validateUpdateDateTime
    rw [if_neg (by simp [ht]), if_pos hd, hfmt]
  · apply serviceUpdateEvent_ok_branch db eventID req oid now e hpos hfind horg
    unfold Service.validateUpdateDateTime
    rw [if_neg (by simp [hd]), if_neg (by simp [hd]), if_pos ht, hfmt]

/-- C5 counterexample: an update patch with valid formats but a past
date-time pair is rejected with the futurity error, refuting "no futurity
requirement on update". -/
theorem updateEvent_futurity_cex :
    Service.validateDateTime reqPast.date reqPast.time = .ok () ∧
    Service.UpdateEvent dbW 1 reqPast 1 nowEq =
      .error "event date and time must be in the future" := ⟨rfl, rfl⟩

/-- C5 witness: the past pair fails with the futurity error; a date-only
patch reduces to the repository update with no futurity check. -/
theorem updateEvent_datetime_validation_witness :
    Service.UpdateEvent dbW 1 reqPast 1 nowEq =
      .error "event date and time must be in the future" ∧
    Service.UpdateEvent dbW 1 reqDateOnly 1 nowEq =
      Repo.UpdateEvent dbW 1 reqDateOnly := by
  have h := updateEvent_datetime_validation dbW 1 reqPast 1 nowEq evW
    (by norm_num) rfl rfl
  have h2 := updateEvent_datetime_validation dbW 1 reqDateOnly 1 nowEq evW
    (by norm_num) rfl rfl
  refine ⟨(h.1 (by decide) (by decide)).1 (toNanos ⟨2020, 1, 1⟩ ⟨0, 0, 0⟩) rfl
    (by decide), h2.2.1 (by decide) rfl rfl⟩

/-- C6: `JoinEvent` fails with "event not found" when the event is absent;
on first success it appends an attendee row with role attendee and status
going; a second join by the same user for the same event then fails with
the unique-constraint conflict error rather than succeeding as a no-op. -/
theorem joinEvent_claims (db : DB) (userID eventID : Int) (now now2 : Nat)
    (hu : 0 < userID) (he : 0 < eventID) :
    ((Repo.GetEventByID db eventID).isOk = false →
      Service.JoinEvent db userID eventID now = .error "event not found") ∧
    (∀ e, Repo.GetEventByID db eventID = .ok e →
      (attendeePairExists db userID eventID = false →
        Service.JoinEvent db userID eventID now =
          .ok (joinResult db userID eventID now) ∧
        (joinResult db userID eventID now).attendees = db.attendees ++
          [⟨db.nextAttendeeId, userID, eventID, "attendee", "going", now⟩] ∧
        Service.JoinEvent (joinResult db userID eventID now) userID eventID
          now2 = .error ("failed to join event: " ++ uniqueViolation)) ∧
      (attendeePairExists db userID eventID = true →
        Service.JoinEvent db userID eventID now =
          .error ("failed to join event: " ++ uniqueViolation))) := by
  constructor
  · intro hnf
    simp only [Service.JoinEvent, bind, Except.bind, throw, throwThe,
      MonadExceptOf.throw, pure, Except.pure]
    rw [if_neg (by omega), if_neg (by omega)]
    cases hf : Repo.GetEventByID db eventID with
    | ok e => rw [hf] at hnf; simp [Except.isOk, Except.toBool] at hnf
    | error m => rfl
  · intro e hfind
    constructor
    · intro hnex
      have hmain : Service.JoinEvent db userID eventID now =
          .ok (joinResult db userID eventID now) := by
        simp only [Service.JoinEvent, bind, Except.bind, throw, throwThe,
          MonadExceptOf.throw, pure, Except.pure, hfind]
        rw [if_neg (by omega), if_neg (by omega)]
        simp only [Repo.JoinEvent, Repo.insertAttendee, hnex]
        rw [if_neg (by simp)]
        rfl
      refine ⟨hmain, rfl, ?_⟩
      have hfind2 : Repo.GetEventByID (joinResult db userID eventID now)
          eventID = .ok e := hfind
      have hex2 : attendeePairExists (joinResult db userID eventID now)
          userID eventID = true := by
        unfold attendeePairExists joinResult
        simp
      simp only [Service.JoinEvent, bind, Except.bind, throw, throwThe,
        MonadExceptOf.throw, pure, Except.pure, hfind2]
      rw [if_neg (by omega), if_neg (by omega)]
      simp only [Repo.JoinEvent, Repo.insertAttendee, hex2]
      rfl
    · intro hex
      simp only [Service.JoinEvent, bind, Except.bind, throw, throwThe,
        MonadExceptOf.throw, pure, Except.pure, hfind]
      rw [if_neg (by omega), if_neg (by omega)]
      simp only [Repo.JoinEvent, Repo.insertAttendee, hex]
      rfl

/-- C6 witness: on `dbW`, user 2 joins event 1, a second join fails with
the conflict error, and joining the absent event 99 fails with not-found. -/
theorem joinEvent_claims_witness :
    Service.JoinEvent dbW 2 1 5 = .ok (joinResult dbW 2 1 5) ∧
    Service.JoinEvent (joinResult dbW 2 1 5) 2 1 6 =
      .error ("failed to join event: " ++ uniqueViolation) ∧
    Service.JoinEvent dbW 2 99 5 = .error "event not found" := by
  have h := joinEvent_claims dbW 2 1 5 6 (by norm_num) (by norm_num)
  have h99 := joinEvent_claims dbW 2 99 5 6 (by norm_num) (by norm_num)
  obtain ⟨hok, _, hsecond⟩ := (h.2 evW rfl).1 (by decide)
  exact ⟨hok, hsecond, h99.1 (by decide)⟩


/-- C7: `InviteUserToEvent` rejects a role outside the whitelist with a
validation error; with a valid role it rejects a non-organizer inviter
with the authorization error and a self-invite with a validation error;
on success it appends an attendee row with status going directly, leaving
the invitations table untouched. -/
theorem inviteUserToEvent_spec (db : DB) (eventID inviterID : Int)
    (req : AddAttendeeRequest) (now : Nat)
    (he : 0 < eventID) (hi : 0 < inviterID) (hu2 : 0 < req.userID) :
    (req.role ≠ "attendee" ∧ req.role ≠ "collaborator" ∧
        req.role ≠ "organizer" →
      Service.InviteUserToEvent db eventID inviterID req now =
        .error "invalid role: must be \x27attendee\x27, \x27collaborator\x27, or \x27organizer\x27") ∧
    (req.role = "attendee" ∨ req.role = "collaborator" ∨
        req.role = "organizer" →
      ∀ e, Repo.GetEventByID db eventID = .ok e →
        (e.organizerID ≠ inviterID →
          Service.InviteUserToEvent db eventID inviterID req now =
            .error "only the event creator can invite users to this event") ∧
        (e.organizerID = inviterID → req.userID = inviterID →
          Service.InviteUserToEvent db eventID inviterID req now =
            .error "you cannot invite yourself to the event") ∧
        (e.organizerID = inviterID → req.userID ≠ inviterID →
          attendeePairExists db req.userID eventID = false →
          Service.InviteUserToEvent db eventID inviterID req now =
            .ok (inviteResult db eventID req.userID req.role now) ∧
          (inviteResult db eventID req.userID req.role now).attendees =
            db.attendees ++
              [⟨db.nextAttendeeId, req.userID, eventID, req.role, "going", now⟩] ∧
          (inviteResult db eventID req.userID req.role now).invitations =
            db.invitations)) := by
  constructor
  · intro hbad
    simp only [Service.InviteUserToEvent, bind, Except.bind, throw, throwThe,
      MonadExceptOf.throw, pure, Except.pure]
    rw [if_neg (by omega), if_neg (by omega), if_neg (by omega), if_pos hbad]
  · intro hvalid e hfind
    have hv : ¬ (req.role ≠ "attendee" ∧ req.role ≠ "collaborator" ∧
        req.role ≠ "organizer") := by
      rcases hvalid with h | h | h <;> simp [h]
    refine ⟨?_, ?_, ?_⟩
    · intro hne
      simp only [Service.InviteUserToEvent, bind, Except.bind, throw, throwThe,
        MonadExceptOf.throw, pure, Except.pure, hfind]
      rw [if_neg (by omega), if_neg (by omega), if_neg (by omega), if_neg hv,
        if_pos hne]
    · intro horg hself
      simp only [Service.InviteUserToEvent, bind, Except.bind, throw, throwThe,
        MonadExceptOf.throw, pure, Except.pure, hfind]
      rw [if_neg (by omega), if_neg (by omega), if_neg (by omega), if_neg hv,
        if_neg (by rw [horg]; simp), if_pos hself]
    · intro horg hself hnex
      refine ⟨?_, rfl, rfl⟩
      simp only [Service.InviteUserToEvent, bind, Except.bind, throw, throwThe,
        MonadExceptOf.throw, pure, Except.pure, hfind]
      rw [if_neg (by omega), if_neg (by omega), if_neg (by omega), if_neg hv,
        if_neg (by rw [horg]; simp), if_neg hself]
      simp only [Repo.AddAttendee, Repo.insertAttendee, hnex]
      rw [if_neg (by simp)]
      rfl

/-- C7 witness: on `dbW`, the organizer invites user 2 (invitations table
untouched), a non-organizer inviter is rejected, a self-invite is rejected,
and an unknown role is rejected. -/
theorem inviteUserToEvent_spec_witness :
    Service.InviteUserToEvent dbW 1 1 ⟨2, "attendee"⟩ 7 =
      .ok (inviteResult dbW 1 2 "attendee" 7) ∧
    (inviteResult dbW 1 2 "attendee" 7).invitations = dbW.invitations ∧
    Service.InviteUserToEvent dbW 1 2 ⟨3, "attendee"⟩ 7 =
      .error "only the event creator can invite users to this event" ∧
    Service.InviteUserToEvent dbW 1 1 ⟨1, "attendee"⟩ 7 =
      .error "you cannot invite yourself to the event" ∧
    Service.InviteUserToEvent dbW 1 1 ⟨2, "boss"⟩ 7 =
      .error "invalid role: must be \x27attendee\x27, \x27collaborator\x27, or \x27organizer\x27" := by
  have h := inviteUserToEvent_spec dbW 1 1 ⟨2, "attendee"⟩ 7
    (by norm_num) (by norm_num) (by norm_num)
  have h2 := inviteUserToEvent_spec dbW 1 2 ⟨3, "attendee"⟩ 7
    (by norm_num) (by norm_num) (by norm_num)
  have h3 := inviteUserToEvent_spec dbW 1 1 ⟨1, "attendee"⟩ 7
    (by norm_num) (by norm_num) (by norm_num)
  have h4 := inviteUserToEvent_spec dbW 1 1 ⟨2, "boss"⟩ 7
    (by norm_num) (by norm_num) (by norm_num)
  obtain ⟨hok, _, hinv⟩ := ((h.2 (Or.inl rfl) evW rfl).2.2) rfl (by decide)
    (by decide)
  exact ⟨hok, hinv, ((h2.2 (Or.inl rfl) evW rfl).1) (by decide),
    ((h3.2 (Or.inl rfl) evW rfl).2.1) rfl rfl, h4.1 (by decide)⟩


/-- C8: every successful `CreateEvent` appends the event row and, in the
same logical operation, appends an EventAttendee row for the organizer
with role organizer and status going. -/
theorem createEvent_organizer_attendee (db : DB) (req : CreateEventRequest)
    (oid : Int) (now : Nat) (ev : EventRow) (db1 : DB)
    (hok : Service.CreateEvent db req oid now = .ok (ev, db1)) :
    db1.events = db.events ++ [ev] ∧
    ev.organizerID = oid ∧
    db1.attendees = db.attendees ++
      [⟨db.nextAttendeeId, oid, ev.id, "organizer", "going", now⟩] := by
  obtain ⟨_, _, _, h4, _, h6, h7⟩ :=
    serviceCreateEvent_ok_inv db req oid now ev db1 hok
  exact ⟨h6, h4, h7⟩

/-- C8 witness: creating an event in the empty database stores the event
and the organizer attendee row. -/
theorem createEvent_organizer_attendee_witness :
    dbC8.events = dbE.events ++ [evC8] ∧
    evC8.organizerID = 1 ∧
    dbC8.attendees = dbE.attendees ++
      [⟨1, 1, evC8.id, "organizer", "going", 0⟩] := by
  have hok : Service.CreateEvent dbE reqC3 1 0 = .ok (evC8, dbC8) := rfl
  exact createEvent_organizer_attendee dbE reqC3 1 0 evC8 dbC8 hok

/-- C9: both Login failure paths, unknown email and hash mismatch, return
the identical message "invalid email or password", for every hash-checking
function, database and input. -/
theorem login_uniform_error (check : String → String → Bool) (db : DB)
    (email password : String) :
    (db.users.find? (fun u => u.email == email) = none →
      Auth.Login check db email password =
        .error "invalid email or password") ∧
    (∀ u, db.users.find? (fun u => u.email == email) = some u →
      check u.passwordHash password = false →
      Auth.Login check db email password =
        .error "invalid email or password") := by
  constructor
  · intro h
    unfold Auth.Login
    simp only [h]
  · intro u hu hc
    unfold Auth.Login
    simp only [hu, hc]
    rw [if_neg (by simp)]

/-- C9 witness: on `dbW`, an unknown email and a wrong password produce
the same error. -/
theorem login_uniform_error_witness :
    Auth.Login (fun _ _ => false) dbW "nobody@x.com" "p" =
      .error "invalid email or password" ∧
    Auth.Login (fun _ _ => false) dbW "alice@x.com" "p" =
      .error "invalid email or password" := by
  have h := login_uniform_error (fun _ _ => false) dbW "nobody@x.com" "p"
  have h2 := login_uniform_error (fun _ _ => false) dbW "alice@x.com" "p"
  exact ⟨h.1 rfl, h2.2 ⟨1, "alice@x.com", "h1", 0⟩ rfl rfl⟩

/-- C10: every list-returning service operation returns a non-nil
(possibly empty) slice on success: the nil slice a row loop leaves behind
is converted to the empty slice before returning. -/
theorem listOps_non_nil (db : DB) (oid uid eid eid2 : Int) (email : String) :
    (∃ l, Service.GetAllEvents db = .ok (some l)) ∧
    (0 < oid →
      (∃ l, Service.GetEventsByOrganizerID db oid = .ok (some l)) ∧
      ∃ l, Service.GetMyOrganizedEvents db oid = .ok (some l)) ∧
    (0 < uid → ∃ l, Service.GetMyAttendingEvents db uid = .ok (some l)) ∧
    (0 < eid → ∃ l, Service.GetEventAttendees db eid = .ok (some l)) ∧
    (∃ l, Invitations.GetMyInvitations db email = .ok (some l)) ∧
    (∃ l, Invitations.GetEventInvitations db eid2 = .ok (some l)) := by
  refine ⟨?_, fun ho => ⟨?_, ?_⟩, fun hu => ?_, fun he => ?_, ?_, ?_⟩
  · unfold Service.GetAllEvents
    cases h : Repo.GetAllEvents db with
    | none => exact ⟨[], by simp only [h]⟩
    | some l => exact ⟨l, by simp only [h]⟩
  · unfold Service.GetEventsByOrganizerID
    rw [if_neg (by omega)]
    cases h : Repo.GetEventsByOrganizerID db oid with
    | none => exact ⟨[], by simp only [h]⟩
    | some l => exact ⟨l, by simp only [h]⟩
  · unfold Service.GetMyOrganizedEvents
    rw [if_neg (by omega)]
    cases h : Repo.GetMyOrganizedEvents db oid with
    | none => exact ⟨[], by simp only [h]⟩
    | some l => exact ⟨l, by simp only [h]⟩
  · unfold Service.GetMyAttendingEvents
    rw [if_neg (by omega)]
    cases h : Repo.GetEventsByAttendeeID db uid with
    | none => exact ⟨[], by simp only [h]⟩
    | some l => exact ⟨l, by simp only [h]⟩
  · unfold Service.GetEventAttendees
    rw [if_neg (by omega)]
    cases h : Repo.GetEventAttendees db eid with
    | none => exact ⟨[], by simp only [h]⟩
    | some l => exact ⟨l, by simp only [h]⟩
  · unfold Invitations.GetMyInvitations
    cases h : Repo.GetInvitationsByEmail db email with
    | none => exact ⟨[], by simp only [h]⟩
    | some l => exact ⟨l, by simp only [h]⟩
  · unfold Invitations.GetEventInvitations
    cases h : Repo.GetInvitationsByEventID db eid2 with
    | none => exact ⟨[], by simp only [h]⟩
    | some l => exact ⟨l, by simp only [h]⟩

/-- C10 witness: on the empty database every list operation returns a
non-nil slice. -/
theorem listOps_non_nil_witness :
    (∃ l, Service.GetAllEvents dbE = .ok (some l)) ∧
    (∃ l, Service.GetEventsByOrganizerID dbE 1 = .ok (some l)) ∧
    (∃ l, Service.GetMyOrganizedEvents dbE 1 = .ok (some l)) ∧
    (∃ l, Service.GetMyAttendingEvents dbE 1 = .ok (some l)) ∧
    (∃ l, Service.GetEventAttendees dbE 1 = .ok (some l)) ∧
    (∃ l, Invitations.GetMyInvitations dbE "bob@x.com" = .ok (some l)) ∧
    (∃ l, Invitations.GetEventInvitations dbE 1 = .ok (some l)) := by
  have h := listOps_non_nil dbE 1 1 1 1 "bob@x.com"
  obtain ⟨h1, h23, h4, h5, h6, h7⟩ := h
  obtain ⟨h2, h3⟩ := h23 (by norm_num)
  exact ⟨h1, h2, h3, h4 (by norm_num), h5 (by norm_num), h6, h7⟩


end EventPlanner
